import Mathlib

/-!
# WikiXplorer: the nearby-places controller of `assets/app.js`

A shallow embedding of the map page of `assets/app.js` and of the helpers it
uses (`distanceMeters`, `fmtDist`, `debounce`, `parseHash`, `writeHash`,
`loadNearby`, `openDetails`, `showPanel`, `clearMarkers`).

Modelling conventions.

* JavaScript numbers that the code computes with are exact rationals (`ℚ`):
  rounding error, `NaN` and the infinities of IEEE doubles are not modelled,
  except in `toNumber`, whose result type `JSNum` has `NaN` and `±Infinity`.
* Strings are lists of characters.
* The transcendental functions of the `Math` object are parameters
  (`MathLib`).
* `Array.prototype.sort` is a stable sort driven by the sign of the comparator,
  as ECMAScript specifies it.
* An `async` function is cut at its `await`s: each piece is a function on the
  page state, and a schedule is the list of the events that resume the pieces.
-/

namespace WikiXplorer

/-! ## Distance and ranking -/

/-- The members of the JavaScript `Math` object that `distanceMeters` calls. -/
structure MathLib where
  PI : ℚ
  sin : ℚ → ℚ
  cos : ℚ → ℚ
  asin : ℚ → ℚ
  sqrt : ℚ → ℚ

/-- A record returned by `API.geosearch`: `{ title, lat, lon, pageid }`. -/
structure Place where
  title : List Char
  lat : ℚ
  lon : ℚ
  pageid : Nat
deriving DecidableEq

/-- The object `{ ...g, dist }` built in `loadNearby`. -/
structure RankedPlace extends Place where
  dist : ℚ
deriving DecidableEq

/-- The value of `map.getCenter()`. -/
structure LatLng where
  lat : ℚ
  lng : ℚ
deriving DecidableEq

/-- `distanceMeters(aLat, aLon, bLat, bLon)`: haversine distance in meters. -/
def distanceMeters (M : MathLib) (aLat aLon bLat bLon : ℚ) : ℚ :=
  let R : ℚ := 6371000
  let toRad : ℚ → ℚ := fun d => (d * M.PI) / 180
  let dLat := toRad (bLat - aLat)
  let dLon := toRad (bLon - aLon)
  let s :=
    M.sin (dLat / 2) * M.sin (dLat / 2) +
    M.cos (toRad aLat) * M.cos (toRad bLat) *
    M.sin (dLon / 2) * M.sin (dLon / 2)
  2 * R * M.asin (M.sqrt s)

/-- One insertion step of the stable sort: `x`, which came before every element
of the list in the input, goes in front of the first `y` that the comparator
does not order before it (`cmp x y ≤ 0`). -/
def insertSorted {α : Type} (cmp : α → α → ℚ) (x : α) : List α → List α
  | [] => [x]
  | y :: ys => if cmp x y ≤ 0 then x :: y :: ys else y :: insertSorted cmp x ys

/-- `Array.prototype.sort(cmp)`: a stable sort by the sign of `cmp`. -/
def sort {α : Type} (cmp : α → α → ℚ) : List α → List α
  | [] => []
  | x :: xs => insertSorted cmp x (sort cmp xs)

/-- The callback `(g) => ({ ...g, dist: distanceMeters(c.lat, c.lng, g.lat, g.lon) })`. -/
def attachDist (M : MathLib) (c : LatLng) (g : Place) : RankedPlace :=
  { g with dist := distanceMeters M c.lat c.lng g.lat g.lon }

/-- The comparator `(a, b) => a.dist - b.dist`. -/
def byDist (a b : RankedPlace) : ℚ := a.dist - b.dist

/-- The constant `withDist` of `loadNearby`:
`places.map(...).sort((a, b) => a.dist - b.dist).slice(0, 20)`. -/
def withDist (M : MathLib) (c : LatLng) (places : List Place) : List RankedPlace :=
  (sort byDist (places.map (attachDist M c))).take 20

/-! ## Numbers and their decimal text -/

/-- `Math.round(x)`: the nearest integer, a tie going up. -/
def mathRound (x : ℚ) : ℤ := ⌊x + 1 / 2⌋

/-- The digits after the decimal point of `r` (with `0 ≤ r < 1`), at most `fuel`
of them, stopping when the expansion ends. -/
def fracDigits : Nat → ℚ → List Char
  | 0, _ => []
  | fuel + 1, r =>
    if r = 0 then [] else
      let d := ⌊r * 10⌋.toNat
      Nat.digitChar d :: fracDigits fuel (r * 10 - d)

/-- `Number::toString(x)` in radix 10, for `x = 0` or `1e-6 ≤ |x| < 1e21` (where
JavaScript uses no exponent) and `x` a decimal of at most 20 places: the sign,
the integer part, and the fraction when there is one. -/
def numberToString (x : ℚ) : List Char :=
  let a := |x|
  let ip := ⌊a⌋.toNat
  let fr := fracDigits 20 (a - ip)
  (if x < 0 then ['-'] else []) ++ Nat.toDigits 10 ip ++ (if fr = [] then [] else '.' :: fr)

/-- `Number.prototype.toFixed(f)` for `|x| < 1e21`: `n` is the integer nearest
to `|x| * 10^f` (the larger one on a tie), written with `f` digits after the
point and a minus sign when `x < 0`. The code rounds the binary double nearest
to `x`, this definition the exact rational: the two differ where the decimal
is a tie that the double misses, as `1.15` at one digit (`1.1` in the code,
`1.2` here). -/
def toFixed (x : ℚ) (f : Nat) : List Char :=
  let a := |x|
  let n := ⌊a * 10 ^ f + 1 / 2⌋.toNat
  let m := Nat.toDigits 10 n
  let m := List.replicate (f + 1 - m.length) '0' ++ m
  let k := m.length
  (if x < 0 then ['-'] else []) ++
    (if f = 0 then m else m.take (k - f) ++ '.' :: m.drop (k - f))

/-- `fmtDist(m)`: meters below 1000, else kilometers with one decimal below
5000 and none from 5000 on. -/
def fmtDist (m : ℚ) : List Char :=
  if m < 1000 then numberToString (mathRound m) ++ " م".toList
  else toFixed (m / 1000) (if m < 5000 then 1 else 0) ++ " كم".toList

/-! ## The locator string: `parseHash` and `writeHash` -/

/-- A JavaScript number as `parseHash` can produce it. -/
inductive JSNum where
  | nan : JSNum
  | inf (negative : Bool) : JSNum
  | fin (q : ℚ) : JSNum
deriving DecidableEq

/-- `ToBoolean` on a number: `NaN` and zero are falsy. -/
def JSNum.truthy : JSNum → Bool
  | .nan => false
  | .inf _ => true
  | .fin q => decide (q ≠ 0)

/-- The expression `x || d` for a number `x` and a non-zero literal `d`. -/
def JSNum.orElse (x : JSNum) (d : ℚ) : JSNum := if x.truthy then x else .fin d

/-- The characters `StringToNumber` strips from both ends (white space and
line terminators). -/
def isStrWhiteSpace (c : Char) : Bool :=
  let n := c.toNat
  n = 0x09 || n = 0x0A || n = 0x0B || n = 0x0C || n = 0x0D || n = 0x20 || n = 0xA0 ||
  n = 0x1680 || (0x2000 ≤ n && n ≤ 0x200A) || n = 0x2028 || n = 0x2029 || n = 0x202F ||
  n = 0x205F || n = 0x3000 || n = 0xFEFF

/-- The value of a digit of radix at most 16, when the character is one. -/
def digitValue (c : Char) : Option Nat :=
  let n := c.toNat
  if 48 ≤ n ∧ n ≤ 57 then some (n - 48)
  else if 97 ≤ n ∧ n ≤ 102 then some (n - 87)
  else if 65 ≤ n ∧ n ≤ 70 then some (n - 55)
  else none

/-- Whether `c` is a digit of the given radix. -/
def isDigitOf (radix : Nat) (c : Char) : Bool :=
  match digitValue c with
  | some d => decide (d < radix)
  | none => false

/-- The number that a list of digits of the given radix writes. -/
def digitsValue (radix : Nat) (ds : List Char) : Nat :=
  ds.foldl (fun acc c => radix * acc + (digitValue c).getD 0) 0

/-- `ExponentPart` without its `e`: an optional sign and at least one digit. -/
def parseExponent (s : List Char) : Option ℤ :=
  let (neg, ds) :=
    match s with
    | '+' :: u => (false, u)
    | '-' :: u => (true, u)
    | u => (false, u)
  if ds ≠ [] ∧ ds.all (isDigitOf 10) then
    some (if neg then -(digitsValue 10 ds : ℤ) else (digitsValue 10 ds : ℤ))
  else none

/-- `StrUnsignedDecimalLiteral`: `Infinity`, or digits with an optional
fraction and an optional exponent, at least one digit before or after the
point. The value is the exact rational that the literal writes; the code
rounds it to a binary double, so a literal that overflows (`1e400`, `Infinity`
in the code), underflows (`1e-400`, `0` in the code) or needs more than 53
bits differs. -/
def parseUnsignedDecimal (s : List Char) : JSNum :=
  if s = "Infinity".toList then .inf false else
    let ip := s.takeWhile (isDigitOf 10)
    let r1 := s.dropWhile (isDigitOf 10)
    let fp := match r1 with
      | '.' :: t => t.takeWhile (isDigitOf 10)
      | _ => []
    let r2 := match r1 with
      | '.' :: t => t.dropWhile (isDigitOf 10)
      | _ => r1
    if ip = [] ∧ fp = [] then .nan else
      let mant : ℚ := (digitsValue 10 (ip ++ fp) : ℚ) / 10 ^ fp.length
      match r2 with
      | [] => .fin mant
      | e :: t =>
        if e = 'e' ∨ e = 'E' then
          match parseExponent t with
          | some x => .fin (mant * 10 ^ x)
          | none => .nan
        else .nan

/-- `NonDecimalIntegerLiteral` after its `0x`, `0o` or `0b`. -/
def parseRadix (radix : Nat) (ds : List Char) : JSNum :=
  if ds ≠ [] ∧ ds.all (isDigitOf radix) then .fin (digitsValue radix ds) else .nan

/-- `StrNumericLiteral`. -/
def parseNumeric (s : List Char) : JSNum :=
  match s with
  | '0' :: 'x' :: ds => parseRadix 16 ds
  | '0' :: 'X' :: ds => parseRadix 16 ds
  | '0' :: 'o' :: ds => parseRadix 8 ds
  | '0' :: 'O' :: ds => parseRadix 8 ds
  | '0' :: 'b' :: ds => parseRadix 2 ds
  | '0' :: 'B' :: ds => parseRadix 2 ds
  | '+' :: u => parseUnsignedDecimal u
  | '-' :: u =>
    match parseUnsignedDecimal u with
    | .fin q => .fin (-q)
    | .inf b => .inf (!b)
    | .nan => .nan
  | u => parseUnsignedDecimal u

/-- `StringToNumber`: the white space at both ends is dropped, and what is left
is `0` when empty, a numeric literal, or `NaN`. -/
def stringToNumber (s : List Char) : JSNum :=
  let t := ((s.dropWhile isStrWhiteSpace).reverse.dropWhile isStrWhiteSpace).reverse
  if t = [] then .fin 0 else parseNumeric t

/-- The unary `+` applied to `h[i]`: `undefined` gives `NaN`. -/
def toNumber : Option (List Char) → JSNum
  | none => .nan
  | some s => stringToNumber s

/-- `String.prototype.replace("#", "")`: the first `#` is removed. -/
def removeFirstHash : List Char → List Char
  | [] => []
  | c :: cs => if c = '#' then cs else c :: removeFirstHash cs

/-- `String.prototype.split("/")`. -/
def splitSlash : List Char → List (List Char)
  | [] => [[]]
  | c :: cs =>
    if c = '/' then [] :: splitSlash cs
    else
      match splitSlash cs with
      | [] => [[c]]
      | seg :: rest => (c :: seg) :: rest

/-- The object `{ z, lat, lon }` that `parseHash` returns. -/
structure HashView where
  z : JSNum
  lat : JSNum
  lon : JSNum
deriving DecidableEq

/-- `parseHash()`, as a function of `location.hash`. -/
def parseHash (hash : List Char) : HashView :=
  let h := splitSlash (removeFirstHash hash)
  { z := (toNumber h[0]?).orElse 12
    lat := (toNumber h[1]?).orElse (247136 / 10000)
    lon := (toNumber h[2]?).orElse (466753 / 10000) }

/-- The string `p` that `writeHash(z, lat, lon)` builds. -/
def hashString (z lat lon : ℚ) : List Char :=
  '#' :: numberToString ((mathRound (z * 100) : ℚ) / 100) ++ '/' :: toFixed lat 4 ++
    '/' :: toFixed lon 4

/-- `writeHash(z, lat, lon)`: the value of `location.hash` after the call, given
the value before it. -/
def writeHash (hash : List Char) (z lat lon : ℚ) : List Char :=
  let p := hashString z lat lon
  if hash ≠ p then p else hash

/-! ## The search radius -/

/-- The constant `radius` of `loadNearby`, `Math.max(500, 20000 / Math.pow(1.5, z - 10))`,
at an integer zoom level. -/
def radius (z : ℤ) : ℚ := max 500 (20000 / (3 / 2 : ℚ) ^ (z - 10))

/-- The third argument of the call `API.geosearch(c.lat, c.lng, Math.round(radius), 40)`. -/
def geosearchRadius (z : ℤ) : ℤ := mathRound (radius z)

/-- The fourth argument of the call `API.geosearch(c.lat, c.lng, Math.round(radius), 40)`. -/
def geosearchLimit : ℕ := 40

/-! ## `debounce` and the timer of the map page -/

/-- A pending timeout created by `setTimeout(() => fn(...args), ms)`: the time
(in ms) at which it is due and the arguments it captured. -/
structure Timer (A : Type) where
  due : Nat
  args : A
deriving DecidableEq

/-- A call, at time `now`, of the function that `debounce(fn, ms)` returns:
`clearTimeout(t); t = setTimeout(() => fn(...args), ms)`, as the new value of
the closure variable `t`. -/
def debounce {A : Type} (ms : Nat) (now : Nat) (args : A) (_t : Option (Timer A)) :
    Option (Timer A) :=
  some { due := now + ms, args := args }

/-- The map page as the timer sees it: what `map.getCenter()` and
`map.getZoom()` return, the timeout of the debounced `loadNearby`, and the runs
of the wrapped body so far (when it ran and the viewport it read). -/
structure MapLoop (V : Type) where
  viewport : V
  t : Option (Timer Unit)
  runs : List (Nat × V)

/-- Time passes up to `now`: a timeout that is due runs the wrapped body, which
reads the viewport the map has at that moment. -/
def MapLoop.elapse {V : Type} (now : Nat) (s : MapLoop V) : MapLoop V :=
  match s.t with
  | some tm =>
    if tm.due ≤ now then { s with t := none, runs := s.runs ++ [(tm.due, s.viewport)] } else s
  | none => s

/-- At time `now` the map has moved to `v` and fires `moveend`, whose listener is
the debounced `loadNearby` (`ms` = 400). -/
def MapLoop.moveend {V : Type} (now : Nat) (v : V) (s : MapLoop V) : MapLoop V :=
  let s := s.elapse now
  { s with viewport := v, t := debounce 400 now () s.t }

/-- A sequence of `moveend` events, each with its time and the viewport the map
has reached. -/
def MapLoop.burst {V : Type} (calls : List (Nat × V)) (s : MapLoop V) : MapLoop V :=
  calls.foldl (fun s c => s.moveend c.1 c.2) s

/-- No further call comes: the pending timeout, if any, runs when it is due. -/
def MapLoop.idle {V : Type} (s : MapLoop V) : MapLoop V :=
  match s.t with
  | some tm => s.elapse tm.due
  | none => s

/-! ## The page state of the map page -/

/-- What `loadNearby` and `showPanel` take from outside the program. -/
structure Env where
  math : MathLib
  encodeURIComponent : List Char → List Char

/-- The JSON that `API.summary` resolves to, as far as the map page reads it:
`title`, `thumbnail?.source`, `extract`, `content_urls?.desktop?.page`. -/
structure Summary where
  title : List Char
  thumbnail : Option (List Char)
  extract : Option (List Char)
  page : Option (List Char)
deriving DecidableEq

/-- The closure `openDetails` of one place: its variables `p.title` and `s`
(`none` is the `null` that `API.summary` returns). -/
structure Details where
  title : List Char
  s : Option Summary
deriving DecidableEq

/-- A Leaflet marker added to the map: its identity, position, whether its
element has the class `selected`, and its click listener. -/
structure Marker where
  id : Nat
  lat : ℚ
  lon : ℚ
  selected : Bool
  click : Details
deriving DecidableEq

/-- A child of `#nearbyList`: a notice `<p class="muted">` or a `.nearby-item`
with its thumbnail source (none for the placeholder `div`), title, meta text
and click listener. -/
inductive ListNode where
  | notice (text : List Char) : ListNode
  | item (thumb : Option (List Char)) (title : List Char) (meta : List Char)
      (click : Details) : ListNode
deriving DecidableEq

/-- A child of `#panelBody`. -/
inductive PanelNode where
  | img (src : List Char) : PanelNode
  | title (text : List Char) : PanelNode
  | text (text : List Char) : PanelNode
  | link (href : List Char) : PanelNode
deriving DecidableEq

/-- The mutable state of the map page. -/
structure Page where
  hash : List Char
  center : LatLng
  zoom : ℤ
  layers : List Marker
  markers : List (List Char × Nat)
  nextId : Nat
  listEl : List ListNode
  panelHidden : Bool
  panelBody : List PanelNode
deriving DecidableEq

/-- `truthy(s) ? s : undefined` for an optional string: the empty string is
falsy. -/
def truthyString : Option (List Char) → Option (List Char)
  | some (c :: cs) => some (c :: cs)
  | _ => none

/-- `Map.prototype.set(k, v)` on the entries of a `Map`, in insertion order. -/
def mapSet (k : List Char) (v : Nat) (entries : List (List Char × Nat)) :
    List (List Char × Nat) :=
  if entries.any (fun e => e.1 == k) then
    entries.map (fun e => if e.1 == k then (k, v) else e)
  else entries ++ [(k, v)]

/-- `clearMarkers()`: every marker recorded in `markers` is removed from the
map, and `markers` is emptied. -/
def clearMarkers (pg : Page) : Page :=
  { pg with
    layers := pg.layers.filter (fun m => !(pg.markers.any (fun e => e.2 == m.id)))
    markers := [] }

/-- `selectMarker(title)`: each marker recorded in `markers` gets the class
`selected` exactly when its key is `title` (`none` is `null`). -/
def selectMarker (title : Option (List Char)) (pg : Page) : Page :=
  { pg with
    layers := pg.layers.map (fun m =>
      match pg.markers.find? (fun e => e.2 == m.id) with
      | some e => { m with selected := decide (some e.1 = title) }
      | none => m) }

/-- `showPanel(summary)`. -/
def showPanel (E : Env) (summary : Summary) (pg : Page) : Page :=
  let img :=
    match truthyString summary.thumbnail with
    | some src => [PanelNode.img src]
    | none => []
  let wikiUrl :=
    match truthyString summary.page with
    | some u => u
    | none => "https://ar.wikipedia.org/wiki/".toList ++ E.encodeURIComponent summary.title
  { pg with
    panelBody := img ++ [PanelNode.title summary.title,
      PanelNode.text ((truthyString summary.extract).getD []), PanelNode.link wikiUrl]
    panelHidden := false }

/-- The closure `openDetails`: `selectMarker(p.title); if (s) showPanel(s);`. -/
def openDetails (E : Env) (d : Details) (pg : Page) : Page :=
  let pg := selectMarker (some d.title) pg
  match d.s with
  | some s => showPanel E s pg
  | none => pg

/-- The click listener of `#closePanel`. -/
def closePanel (pg : Page) : Page :=
  selectMarker none { pg with panelHidden := true }

/-- A click on the `i`-th child of `#nearbyList`: a `.nearby-item` runs its
`openDetails`, a notice has no listener. -/
def clickRow (E : Env) (i : Nat) (pg : Page) : Page :=
  match pg.listEl[i]? with
  | some (.item _ _ _ d) => openDetails E d pg
  | _ => pg

/-- A click on the `j`-th marker of the map: it runs the `openDetails` that
`marker.on("click", openDetails)` registered. -/
def clickMarker (E : Env) (j : Nat) (pg : Page) : Page :=
  match pg.layers[j]? with
  | some m => openDetails E m.click pg
  | none => pg

/-- The notice shown while a reload is running. -/
def loadingText : List Char := "جاري التحميل…".toList

/-- The notice shown when no place was found. -/
def emptyText : List Char := "لا توجد صفحات قريبة في هذا النطاق.".toList

/-- The notice shown by the `catch` block. -/
def errorText : List Char := "حدث خطأ أثناء جلب العناصر القريبة.".toList

/-- One round of `withDist.forEach((p, i) => ...)` with `s = sums[i]`: a new
marker on the map, recorded under `p.title`, and a new `.nearby-item`. -/
def addPlace (pg : Page) (p : RankedPlace) (s : Option Summary) : Page :=
  let d : Details := { title := p.title, s := s }
  let marker : Marker :=
    { id := pg.nextId, lat := p.lat, lon := p.lon, selected := false, click := d }
  { pg with
    layers := pg.layers ++ [marker]
    markers := mapSet p.title marker.id pg.markers
    nextId := pg.nextId + 1
    listEl := pg.listEl ++
      [ListNode.item (truthyString (s.bind (fun x => x.thumbnail))) p.title
        ("المسافة: ".toList ++ fmtDist p.dist) d] }

/-- The loop `withDist.forEach((p, i) => ...)`, reading `sums[i]` (a missing
entry is `undefined`, which is falsy like `null`). -/
def forEachPlace : List RankedPlace → List (Option Summary) → Page → Page
  | [], _, pg => pg
  | p :: ps, sums, pg => forEachPlace ps sums.tail (addPlace pg p sums.head?.join)

/-- The part of `loadNearby` after `await Promise.all(...)`: the visible swap. -/
def swap (wd : List RankedPlace) (sums : List (Option Summary)) (pg : Page) : Page :=
  let pg := clearMarkers pg
  let pg := { pg with listEl := [] }
  let pg := forEachPlace wd sums pg
  if wd.length = 0 then { pg with listEl := [ListNode.notice emptyText] } else pg

/-- The `catch` block of `loadNearby`. -/
def showError (pg : Page) : Page :=
  { pg with listEl := [ListNode.notice errorText] }

/-! ## `loadNearby` as a machine over its `await`s -/

/-- Where a run of the body of `loadNearby` is suspended: at
`await API.geosearch(c.lat, c.lng, radius, limit)`, or at
`await Promise.all(withDist.map(...))`. -/
inductive Suspended where
  | geosearch (c : LatLng) (radius : ℤ) (limit : ℕ) : Suspended
  | summaries (wd : List RankedPlace) : Suspended
deriving DecidableEq

/-- The page together with the suspended runs of the body, each under the
number of its run. -/
structure World where
  page : Page
  calls : List (Nat × Suspended)
deriving DecidableEq

/-- What can happen to the map page. -/
inductive Event where
  | setView (c : LatLng) (z : ℤ) : Event
  | run (id : Nat) : Event
  | geosearchOk (id : Nat) (places : List Place) : Event
  | geosearchThrows (id : Nat) : Event
  | summariesOk (id : Nat) (sums : List (Option Summary)) : Event
  | summariesThrow (id : Nat) : Event

/-- The body of `loadNearby` up to its first `await`. -/
def start (pg : Page) : Page × Suspended :=
  let c := pg.center
  let z := pg.zoom
  ({ pg with hash := writeHash pg.hash z c.lat c.lng
             listEl := [ListNode.notice loadingText] },
   Suspended.geosearch c (geosearchRadius z) geosearchLimit)

/-- One event. A run of the body is resumed only where it is suspended; an event
for a run that is not waiting for it changes nothing. -/
def step (E : Env) (w : World) : Event → World
  | .setView c z => { w with page := { w.page with center := c, zoom := z } }
  | .run id =>
    if w.calls.any (fun e => e.1 == id) then w
    else { page := (start w.page).1, calls := w.calls ++ [(id, (start w.page).2)] }
  | .geosearchOk id places =>
    match w.calls.lookup id with
    | some (.geosearch c _ _) =>
      { w with calls := w.calls.map (fun e =>
          if e.1 == id then (id, Suspended.summaries (withDist E.math c places)) else e) }
    | _ => w
  | .geosearchThrows id =>
    match w.calls.lookup id with
    | some (.geosearch _ _ _) =>
      { page := showError w.page, calls := w.calls.filter (fun e => !(e.1 == id)) }
    | _ => w
  | .summariesOk id sums =>
    match w.calls.lookup id with
    | some (.summaries wd) =>
      { page := swap wd sums w.page, calls := w.calls.filter (fun e => !(e.1 == id)) }
    | _ => w
  | .summariesThrow id =>
    match w.calls.lookup id with
    | some (.summaries _) =>
      { page := showError w.page, calls := w.calls.filter (fun e => !(e.1 == id)) }
    | _ => w

/-- A schedule of events, from left to right. -/
def exec (E : Env) (w : World) (events : List Event) : World :=
  events.foldl (step E) w

/-- The page after `DOMContentLoaded` has set up the map from `parseHash()` and
before the first reload (the center and zoom are the defaults of `parseHash`). -/
def Page.init : Page :=
  { hash := [], center := { lat := 247136 / 10000, lng := 466753 / 10000 }, zoom := 12,
    layers := [], markers := [], nextId := 0, listEl := [], panelHidden := true,
    panelBody := [] }

/-- The titles of the markers that are on the map. -/
def markerTitles (pg : Page) : List (List Char) :=
  pg.layers.map (fun m => m.click.title)

/-- The titles of the rows of the nearby list. -/
def rowTitles (pg : Page) : List (List Char) :=
  pg.listEl.filterMap (fun n =>
    match n with
    | .item _ t _ _ => some t
    | .notice _ => none)

/-- All the ways of merging two sequences of events that keep the order inside
each of them. -/
def interleavings {α : Type} : List α → List α → List (List α)
  | [], ys => [ys]
  | x :: xs, [] => [x :: xs]
  | x :: xs, y :: ys =>
    (interleavings xs (y :: ys)).map (fun l => x :: l) ++
    (interleavings (x :: xs) ys).map (fun l => y :: l)

/-! ## Observations used in the statements -/

/-- The meta texts of the rows of the nearby list. -/
def rowMetas (pg : Page) : List (List Char) :=
  pg.listEl.filterMap (fun n =>
    match n with
    | .item _ _ m _ => some m
    | .notice _ => none)

/-- The `.nearby-item`s that `withDist.forEach` appends, one for each place in
order, with `sums[i]` for the `i`-th. -/
def rowsOf : List RankedPlace → List (Option Summary) → List ListNode
  | [], _ => []
  | p :: ps, sums =>
    ListNode.item (truthyString (sums.head?.join.bind (fun x => x.thumbnail))) p.title
      ("المسافة: ".toList ++ fmtDist p.dist) { title := p.title, s := sums.head?.join } ::
    rowsOf ps sums.tail

/-- The markers that `withDist.forEach` adds to the map, one for each place in
order, numbered from `n`. -/
def markersOf : Nat → List RankedPlace → List (Option Summary) → List Marker
  | _, [], _ => []
  | n, p :: ps, sums =>
    { id := n, lat := p.lat, lon := p.lon, selected := false,
      click := { title := p.title, s := sums.head?.join } } ::
    markersOf (n + 1) ps sums.tail

/-- The entries that `markers.set(p.title, marker)` records for places with
distinct titles, the markers being numbered from `n`. -/
def entriesOf : Nat → List RankedPlace → List (List Char × Nat)
  | _, [] => []
  | n, p :: ps => (p.title, n) :: entriesOf (n + 1) ps

/-- Every marker on the map is recorded in `markers` under the title of its
place: the state in which the map holds no marker that `clearMarkers` and
`selectMarker` cannot reach. -/
def Synced (pg : Page) : Prop :=
  ∀ m ∈ pg.layers, pg.markers.find? (fun e => e.2 == m.id) = some (m.click.title, m.id)

/-- The page shows the result of the cycle with ranked places `wd` and summaries
`sums`: the nearby list holds one row for each place in order (or the notice
that nothing was found), and the markers on the map are one unselected marker
for each place in order, each recorded in `markers` under the title of its
place, and no other marker. -/
def showsResult (pg : Page) (wd : List RankedPlace) (sums : List (Option Summary)) : Prop :=
  pg.listEl = (if wd.length = 0 then [ListNode.notice emptyText] else rowsOf wd sums) ∧
  ∃ n : Nat, pg.layers = markersOf n wd sums ∧ pg.markers = entriesOf n wd

/-- What a run suspended at `await API.geosearch(...)` becomes when the call
resolves with `places`; a run suspended elsewhere is not resumed. -/
def afterGeosearch (E : Env) (places : List Place) : Suspended → Suspended
  | .geosearch c _ _ => .summaries (withDist E.math c places)
  | .summaries wd => .summaries wd

/-- What a run suspended at `await Promise.all(...)` becomes when it resolves:
it ends; a run suspended elsewhere is not resumed. -/
def afterSummaries : Suspended → Option Suspended
  | .summaries _ => none
  | .geosearch c r l => some (.geosearch c r l)

/-- The page after `Promise.all(...)` resolved with `sums` for a run found in
the given state: the swap of a run that was waiting for it, no change
otherwise. -/
def pageAfterSummaries (sums : List (Option Summary)) (pg : Page) : Option Suspended → Page
  | some (.summaries wd) => swap wd sums pg
  | some (.geosearch _ _ _) => pg
  | none => pg

/-- No run of the body is waiting for its summaries with two ranked places of
the same title. -/
def NodupResults (w : World) : Prop :=
  ∀ (id : Nat) (wd : List RankedPlace),
    w.calls.lookup id = some (.summaries wd) → (wd.map (fun p => p.title)).Nodup

/-- The places that a geosearch response carries have distinct titles (the
titles of distinct pages of one wiki). -/
def Event.nodupTitles : Event → Prop
  | .geosearchOk _ places => (places.map (fun g => g.title)).Nodup
  | _ => True

/-! ## Sample data for concrete runs -/

/-- A stand-in for the `Math` object in concrete runs. With it `distanceMeters`
is `((bLat - aLat)^2 + (bLon - aLon)^2) / 4`. -/
def sampleMath : MathLib :=
  { PI := 180, sin := id, cos := fun _ => 1, asin := fun x => x / 12742000, sqrt := id }

/-- The environment of the concrete runs. -/
def sampleEnv : Env := { math := sampleMath, encodeURIComponent := id }

/-- A place titled `A`. -/
def placeA : Place := { title := ['A'], lat := 20, lon := 0, pageid := 1 }

/-- A place titled `B`. -/
def placeB : Place := { title := ['B'], lat := 10, lon := 10, pageid := 2 }

/-- The page and no suspended run, right after the page has loaded. -/
def World.init : World := { page := Page.init, calls := [] }

/-! ## Lemmas on the stable sort -/

theorem insertSorted_perm {α : Type} (cmp : α → α → ℚ) (x : α) (l : List α) :
    (insertSorted cmp x l).Perm (x :: l) := by
  induction l with
  | nil => exact List.Perm.refl _
  | cons y ys ih =>
    unfold insertSorted
    split
    · exact List.Perm.refl _
    · exact (List.Perm.cons y ih).trans (List.Perm.swap x y ys)

theorem sort_perm {α : Type} (cmp : α → α → ℚ) (l : List α) : (sort cmp l).Perm l := by
  induction l with
  | nil => exact List.Perm.refl _
  | cons x xs ih =>
    unfold sort
    exact (insertSorted_perm cmp x _).trans (List.Perm.cons x ih)

theorem insertSorted_pairwise {α : Type} (key : α → ℚ) (x : α) (l : List α)
    (h : l.Pairwise (fun a b => key a ≤ key b)) :
    (insertSorted (fun a b => key a - key b) x l).Pairwise (fun a b => key a ≤ key b) := by
  induction l with
  | nil => simp [insertSorted]
  | cons y ys ih =>
    rw [List.pairwise_cons] at h
    unfold insertSorted
    split
    · rename_i hxy
      have hxy' : key x ≤ key y := by linarith
      refine List.pairwise_cons.2 ⟨?_, List.pairwise_cons.2 h⟩
      intro b hb
      rcases List.mem_cons.1 hb with rfl | hb
      · exact hxy'
      · exact le_trans hxy' (h.1 b hb)
    · rename_i hxy
      have hyx : key y ≤ key x := by
        have : ¬ (key x - key y ≤ 0) := hxy
        linarith [lt_of_not_ge this]
      refine List.pairwise_cons.2 ⟨?_, ih h.2⟩
      intro b hb
      rcases List.mem_cons.1 ((insertSorted_perm _ x ys).subset hb) with rfl | hb
      · exact hyx
      · exact h.1 b hb

theorem sort_pairwise {α : Type} (key : α → ℚ) (l : List α) :
    (sort (fun a b => key a - key b) l).Pairwise (fun a b => key a ≤ key b) := by
  induction l with
  | nil => simp [sort]
  | cons x xs ih =>
    unfold sort
    exact insertSorted_pairwise key x _ ih

theorem insertSorted_filter {α : Type} (key : α → ℚ) (d : ℚ) (x : α) (l : List α) :
    (insertSorted (fun a b => key a - key b) x l).filter (fun a => decide (key a = d)) =
      (x :: l).filter (fun a => decide (key a = d)) := by
  induction l with
  | nil => simp [insertSorted]
  | cons y ys ih =>
    unfold insertSorted
    split
    · rfl
    · rename_i hxy
      have hne : key x ≠ key y := by
        intro he
        apply hxy
        simp [he]
      by_cases hx : key x = d
      · have hy : ¬ key y = d := fun hy => hne (hx.trans hy.symm)
        rw [List.filter_cons_of_neg (by simpa using hy), ih]
        simp [List.filter_cons, hx, hy]
      · by_cases hy : key y = d
        · rw [List.filter_cons_of_pos (by simpa using hy), ih]
          simp [List.filter_cons, hx, hy]
        · rw [List.filter_cons_of_neg (by simpa using hy), ih]
          simp [List.filter_cons, hx, hy]

theorem sort_filter {α : Type} (key : α → ℚ) (d : ℚ) (l : List α) :
    (sort (fun a b => key a - key b) l).filter (fun a => decide (key a = d)) =
      l.filter (fun a => decide (key a = d)) := by
  induction l with
  | nil => rfl
  | cons x xs ih =>
    unfold sort
    rw [insertSorted_filter, List.filter_cons, List.filter_cons, ih]

theorem byDist_eq : byDist = fun a b : RankedPlace => a.dist - b.dist := rfl

/-! ## The ranked list -/

/-- C1: for every center and every list of places, the ranked list `withDist`
is in non-decreasing order of `dist`, and for every distance `d` the places of
the ranked list at distance `d` are, in the same order, an initial part of the
places of the geosearch result at distance `d`: equal distances keep the
relative order of the geosearch result. -/
theorem withDist_sorted_stable (M : MathLib) (c : LatLng) (places : List Place) :
    (withDist M c places).Pairwise (fun a b => a.dist ≤ b.dist) ∧
    ∀ d : ℚ,
      ((withDist M c places).filter (fun a => decide (a.dist = d))).map RankedPlace.toPlace <+:
        places.filter (fun g => decide (distanceMeters M c.lat c.lng g.lat g.lon = d)) := by
  constructor
  · unfold withDist
    rw [byDist_eq]
    exact (sort_pairwise (fun a : RankedPlace => a.dist) _).sublist (List.take_sublist _ _)
  · intro d
    have hmap : ((places.map (attachDist M c)).filter (fun a => decide (a.dist = d))).map
        RankedPlace.toPlace =
        places.filter (fun g => decide (distanceMeters M c.lat c.lng g.lat g.lon = d)) := by
      induction places with
      | nil => rfl
      | cons g gs ih =>
        by_cases hg : distanceMeters M c.lat c.lng g.lat g.lon = d
        · simp [List.filter_cons, attachDist, hg] at ih ⊢
          exact ih
        · simp [List.filter_cons, attachDist, hg] at ih ⊢
          exact ih
    have hsort := sort_filter (fun a : RankedPlace => a.dist) d (places.map (attachDist M c))
    rw [← hmap, ← hsort]
    unfold withDist
    rw [byDist_eq]
    have hsplit := List.take_append_drop 20
      (sort (fun a b : RankedPlace => a.dist - b.dist) (places.map (attachDist M c)))
    conv_rhs => rw [← hsplit]
    rw [List.filter_append, List.map_append]
    exact List.prefix_append _ _

/-- C2: the ranked list has `min n 20` entries for `n` places (20 when there
are more than 20, `n` otherwise); together with the entries left out it is a
rearrangement of the input with distances attached, so every entry is an input
place; and every entry left out is at least as far as every entry kept. -/
theorem withDist_truncates_after_sort (M : MathLib) (c : LatLng) (places : List Place) :
    (20 < places.length → (withDist M c places).length = 20) ∧
    (places.length ≤ 20 → (withDist M c places).length = places.length) ∧
    (∀ k ∈ withDist M c places, k.toPlace ∈ places ∧
      k.dist = distanceMeters M c.lat c.lng k.lat k.lon) ∧
    ∃ leftOut : List RankedPlace,
      (withDist M c places ++ leftOut).Perm (places.map (attachDist M c)) ∧
      ∀ k ∈ withDist M c places, ∀ r ∈ leftOut, k.dist ≤ r.dist := by
  have hlen : (sort byDist (places.map (attachDist M c))).length = places.length := by
    rw [(sort_perm _ _).length_eq, List.length_map]
  have hsplit := List.take_append_drop 20 (sort byDist (places.map (attachDist M c)))
  refine ⟨?_, ?_, ?_, (sort byDist (places.map (attachDist M c))).drop 20, ?_, ?_⟩
  · intro h
    unfold withDist
    rw [List.length_take, hlen]
    omega
  · intro h
    unfold withDist
    rw [List.length_take, hlen]
    omega
  · intro k hk
    have hk' : k ∈ places.map (attachDist M c) :=
      (sort_perm _ _).subset (List.mem_of_mem_take hk)
    obtain ⟨g, hg, rfl⟩ := List.mem_map.1 hk'
    exact ⟨hg, rfl⟩
  · unfold withDist
    rw [hsplit]
    exact sort_perm _ _
  · have hs := sort_pairwise (fun a : RankedPlace => a.dist) (places.map (attachDist M c))
    rw [← byDist_eq, ← hsplit, List.pairwise_append] at hs
    intro k hk r hr
    exact hs.2.2 k hk r hr

/-! ## The search radius -/

theorem mathRound_mono {x y : ℚ} (h : x ≤ y) : mathRound x ≤ mathRound y := by
  unfold mathRound
  exact Int.floor_mono (by linarith)

theorem mathRound_intCast (n : ℤ) : mathRound (n : ℚ) = n := by
  unfold mathRound
  rw [Int.floor_eq_iff]
  constructor <;> norm_num

theorem radius_ge (z : ℤ) : (500 : ℚ) ≤ radius z := le_max_left _ _

theorem radius_of_ge_twelve (z : ℤ) (h : 12 ≤ z) : radius z ≤ 8889 := by
  unfold radius
  have hp : (3 / 2 : ℚ) ^ (2 : ℤ) ≤ (3 / 2 : ℚ) ^ (z - 10) :=
    zpow_le_zpow_right₀ (by norm_num) (by omega)
  have h94 : (9 / 4 : ℚ) ≤ (3 / 2 : ℚ) ^ (z - 10) := by
    have : (3 / 2 : ℚ) ^ (2 : ℤ) = 9 / 4 := by norm_num
    rw [this] at hp
    exact hp
  apply max_le (by norm_num)
  rw [div_le_iff₀ (by linarith)]
  linarith

theorem radius_of_le_eleven (z : ℤ) (h : z ≤ 11) : (13333 : ℚ) ≤ radius z := by
  unfold radius
  have hp : (3 / 2 : ℚ) ^ (z - 10) ≤ (3 / 2 : ℚ) ^ (1 : ℤ) :=
    zpow_le_zpow_right₀ (by norm_num) (by omega)
  have h32 : (3 / 2 : ℚ) ^ (z - 10) ≤ 3 / 2 := by
    simpa using hp
  have hpos : (0 : ℚ) < (3 / 2 : ℚ) ^ (z - 10) := zpow_pos (by norm_num) _
  apply le_max_of_le_right
  rw [le_div_iff₀ hpos]
  linarith

/-- C10 (as amended): for every integer zoom `z` the radius passed to
`API.geosearch` is an integer of at least 500 (so at least 10), it is at most
10000 exactly when `z ≥ 12`, and the limit passed, 40, is at most 500. -/
theorem geosearch_arguments (z : ℤ) :
    500 ≤ geosearchRadius z ∧ (geosearchRadius z ≤ 10000 ↔ 12 ≤ z) ∧ geosearchLimit ≤ 500 := by
  refine ⟨?_, ⟨?_, ?_⟩, by decide⟩
  · have := mathRound_mono (radius_ge z)
    have h5 : mathRound (500 : ℚ) = 500 := by exact_mod_cast mathRound_intCast 500
    unfold geosearchRadius
    omega
  · intro hr
    by_contra hz
    have := mathRound_mono (radius_of_le_eleven z (by omega))
    have h5 : mathRound (13333 : ℚ) = 13333 := by exact_mod_cast mathRound_intCast 13333
    unfold geosearchRadius at hr
    omega
  · intro hz
    have := mathRound_mono (radius_of_ge_twelve z hz)
    have h5 : mathRound (8889 : ℚ) = 8889 := by exact_mod_cast mathRound_intCast 8889
    unfold geosearchRadius
    omega

/-- C10, counterexample: at zoom 10 the radius passed to `API.geosearch` is
20000, outside `[10, 10000]`. -/
theorem geosearch_radius_out_of_range : geosearchRadius 10 = 20000 ∧ ¬ (10 ≤ geosearchRadius 10 ∧ geosearchRadius 10 ≤ 10000) := by
  decide!

/-! ## The debounced reload -/

theorem burst_within_quiet_period {V : Type} (cs : List (Nat × V)) :
    ∀ (c : Nat × V) (s : MapLoop V),
      s.t = some { due := c.1 + 400, args := () } → s.viewport = c.2 →
      List.Chain (fun a b : Nat × V => a.1 ≤ b.1 ∧ b.1 < a.1 + 400) c cs →
      (s.burst cs).runs = s.runs ∧
      (s.burst cs).t = some { due := ((c :: cs).getLast (List.cons_ne_nil _ _)).1 + 400, args := () } ∧
      (s.burst cs).viewport = ((c :: cs).getLast (List.cons_ne_nil _ _)).2 := by
  induction cs with
  | nil =>
    intro c s ht hv _
    exact ⟨rfl, by simpa using ht, by simpa using hv⟩
  | cons d ds ih =>
    intro c s ht hv hch
    rw [List.chain_cons] at hch
    obtain ⟨⟨_, hlt⟩, hrest⟩ := hch
    have hel : s.elapse d.1 = s := by
      unfold MapLoop.elapse
      rw [ht]
      simp only
      rw [if_neg (by omega)]
    have hstep : MapLoop.burst (d :: ds) s = MapLoop.burst ds (s.moveend d.1 d.2) := rfl
    have h := ih d (s.moveend d.1 d.2)
      (by simp [MapLoop.moveend, debounce]) (by simp [MapLoop.moveend]) hrest
    rw [hstep]
    refine ⟨?_, ?_, ?_⟩
    · rw [h.1]
      simp [MapLoop.moveend, hel]
    · rw [h.2.1]
      simp [List.getLast_cons]
    · rw [h.2.2]
      simp [List.getLast_cons]

/-- C9: in a burst of at least one call of the debounced `loadNearby`, each
call coming less than 400 ms after the previous one (and no earlier timeout
being due before the first call), the wrapped body runs exactly once, 400 ms
after the last call, and reads the viewport of the last call; no timeout stays
pending. -/
theorem debounce_burst_runs_once {V : Type} (s : MapLoop V) (calls : List (Nat × V))
    (hne : calls ≠ [])
    (hgap : List.Chain' (fun a b : Nat × V => a.1 ≤ b.1 ∧ b.1 < a.1 + 400) calls)
    (hdue : ∀ tm, s.t = some tm → (calls.head hne).1 < tm.due) :
    ((s.burst calls).idle).runs =
      s.runs ++ [((calls.getLast hne).1 + 400, (calls.getLast hne).2)] ∧
    ((s.burst calls).idle).t = none := by
  cases calls with
  | nil => exact absurd rfl hne
  | cons c cs =>
    have hel : s.elapse c.1 = s := by
      unfold MapLoop.elapse
      cases ht : s.t with
      | none => rfl
      | some tm =>
        have := hdue tm ht
        simp only [List.head_cons] at this
        simp only
        rw [if_neg (by omega)]
    have hstep : MapLoop.burst (c :: cs) s = MapLoop.burst cs (s.moveend c.1 c.2) := rfl
    have h := burst_within_quiet_period cs c (s.moveend c.1 c.2)
      (by simp [MapLoop.moveend, debounce]) (by simp [MapLoop.moveend]) hgap
    rw [hstep]
    have hruns : (s.moveend c.1 c.2).runs = s.runs := by simp [MapLoop.moveend, hel]
    unfold MapLoop.idle
    rw [h.2.1]
    simp only
    unfold MapLoop.elapse
    rw [h.2.1]
    simp only [le_refl, if_true]
    rw [h.1, h.2.2, hruns]
    exact ⟨rfl, trivial⟩

/-- C9, witness: three calls at 0, 100 and 499 ms give one run, at 899 ms, on
the last viewport. -/
theorem debounce_burst_runs_once_witness :
    ((MapLoop.burst [(0, 'a'), (100, 'b'), (499, 'c')]
        ({ viewport := 'z', t := none, runs := [] } : MapLoop Char)).idle).runs = [(899, 'c')] :=
  (debounce_burst_runs_once { viewport := 'z', t := none, runs := [] }
    [(0, 'a'), (100, 'b'), (499, 'c')] (by simp) (by simp [List.Chain']) (by simp)).1

/-! ## The swap step and the detail panel -/

theorem forEachPlace_listEl (wd : List RankedPlace) :
    ∀ (sums : List (Option Summary)) (pg : Page),
      (forEachPlace wd sums pg).listEl = pg.listEl ++ rowsOf wd sums := by
  induction wd with
  | nil => intro sums pg; simp [forEachPlace, rowsOf]
  | cons p ps ih =>
    intro sums pg
    rw [forEachPlace, ih]
    simp [addPlace, rowsOf]

theorem forEachPlace_layers (wd : List RankedPlace) :
    ∀ (sums : List (Option Summary)) (pg : Page),
      (forEachPlace wd sums pg).layers = pg.layers ++ markersOf pg.nextId wd sums := by
  induction wd with
  | nil => intro sums pg; simp [forEachPlace, markersOf]
  | cons p ps ih =>
    intro sums pg
    rw [forEachPlace, ih]
    simp [addPlace, markersOf]

theorem forEachPlace_panel (wd : List RankedPlace) :
    ∀ (sums : List (Option Summary)) (pg : Page),
      (forEachPlace wd sums pg).panelHidden = pg.panelHidden ∧
      (forEachPlace wd sums pg).panelBody = pg.panelBody := by
  induction wd with
  | nil => intro sums pg; simp [forEachPlace]
  | cons p ps ih =>
    intro sums pg
    rw [forEachPlace]
    rw [(ih _ _).1, (ih _ _).2]
    simp [addPlace]

theorem rowsOf_getElem? (wd : List RankedPlace) :
    ∀ (sums : List (Option Summary)) (i : Nat) (p : RankedPlace), wd[i]? = some p →
      (rowsOf wd sums)[i]? =
        some (ListNode.item (truthyString (sums[i]?.join.bind (fun x => x.thumbnail))) p.title
          ("المسافة: ".toList ++ fmtDist p.dist) { title := p.title, s := sums[i]?.join }) := by
  induction wd with
  | nil => intro sums i p h; simp at h
  | cons q qs ih =>
    intro sums i p h
    cases i with
    | zero =>
      simp at h
      subst h
      cases sums <;> simp [rowsOf]
    | succ j =>
      simp at h
      have := ih sums.tail j p h
      cases sums <;> simpa [rowsOf] using this

theorem markersOf_getElem? (wd : List RankedPlace) :
    ∀ (n : Nat) (sums : List (Option Summary)) (i : Nat) (p : RankedPlace), wd[i]? = some p →
      (markersOf n wd sums)[i]? =
        some { id := n + i, lat := p.lat, lon := p.lon, selected := false,
               click := { title := p.title, s := sums[i]?.join } } := by
  induction wd with
  | nil => intro n sums i p h; simp at h
  | cons q qs ih =>
    intro n sums i p h
    cases i with
    | zero =>
      simp at h
      subst h
      cases sums <;> simp [markersOf]
    | succ j =>
      simp at h
      have := ih (n + 1) sums.tail j p h
      cases sums <;> simpa [markersOf, Nat.add_assoc, Nat.add_comm 1 j] using this

theorem swap_listEl_getElem? (wd : List RankedPlace) (sums : List (Option Summary)) (pg : Page)
    (i : Nat) (p : RankedPlace) (h : wd[i]? = some p) :
    (swap wd sums pg).listEl[i]? =
      some (ListNode.item (truthyString (sums[i]?.join.bind (fun x => x.thumbnail))) p.title
          ("المسافة: ".toList ++ fmtDist p.dist) { title := p.title, s := sums[i]?.join }) := by
  have hne : wd.length ≠ 0 := by
    intro h0
    rw [List.length_eq_zero] at h0
    simp [h0] at h
  unfold swap
  simp only [hne, if_false]
  rw [forEachPlace_listEl]
  simpa using rowsOf_getElem? wd sums i p h

theorem swap_panel (wd : List RankedPlace) (sums : List (Option Summary)) (pg : Page) :
    (swap wd sums pg).panelHidden = pg.panelHidden ∧ (swap wd sums pg).panelBody = pg.panelBody := by
  unfold swap
  split <;> simp [forEachPlace_panel, clearMarkers]

theorem selectMarker_panel (t : Option (List Char)) (pg : Page) :
    (selectMarker t pg).panelHidden = pg.panelHidden ∧
    (selectMarker t pg).panelBody = pg.panelBody := ⟨rfl, rfl⟩

/-! ## The markers that a swap leaves on the map -/

theorem mapSet_of_not_mem (k : List Char) (v : Nat) (l : List (List Char × Nat))
    (h : k ∉ l.map Prod.fst) : mapSet k v l = l ++ [(k, v)] := by
  have hany : ¬ (l.any (fun e => e.1 == k) = true) := by
    intro ha
    obtain ⟨e, he, hk⟩ := List.any_eq_true.1 ha
    exact h (List.mem_map.2 ⟨e, he, by simpa using hk⟩)
  unfold mapSet
  rw [if_neg hany]

theorem forEachPlace_nextId (wd : List RankedPlace) :
    ∀ (sums : List (Option Summary)) (pg : Page),
      (forEachPlace wd sums pg).nextId = pg.nextId + wd.length := by
  induction wd with
  | nil => intro sums pg; rfl
  | cons p ps ih =>
    intro sums pg
    rw [forEachPlace, ih]
    simp only [addPlace, List.length_cons]
    omega

theorem forEachPlace_center (wd : List RankedPlace) :
    ∀ (sums : List (Option Summary)) (pg : Page),
      (forEachPlace wd sums pg).center = pg.center := by
  induction wd with
  | nil => intro sums pg; rfl
  | cons p ps ih =>
    intro sums pg
    rw [forEachPlace, ih]
    rfl

theorem forEachPlace_markers (wd : List RankedPlace) :
    ∀ (sums : List (Option Summary)) (pg : Page),
      (wd.map (fun p => p.title)).Nodup →
      (∀ p ∈ wd, p.title ∉ pg.markers.map Prod.fst) →
      (forEachPlace wd sums pg).markers = pg.markers ++ entriesOf pg.nextId wd := by
  induction wd with
  | nil => intro sums pg _ _; simp [forEachPlace, entriesOf]
  | cons p ps ih =>
    intro sums pg hnd hfresh
    rw [List.map_cons, List.nodup_cons] at hnd
    have hp : p.title ∉ pg.markers.map Prod.fst := hfresh p (List.mem_cons_self _ _)
    have hm : (addPlace pg p sums.head?.join).markers = pg.markers ++ [(p.title, pg.nextId)] :=
      mapSet_of_not_mem _ _ _ hp
    have hn : (addPlace pg p sums.head?.join).nextId = pg.nextId + 1 := rfl
    rw [forEachPlace, ih sums.tail _ hnd.2, hm, hn]
    · simp [entriesOf]
    · intro q hq
      rw [hm]
      simp only [List.map_append, List.map_cons, List.map_nil, List.mem_append,
        List.mem_singleton, not_or]
      refine ⟨hfresh q (List.mem_cons_of_mem _ hq), ?_⟩
      intro hqp
      exact hnd.1 (List.mem_map.2 ⟨q, hq, hqp⟩)

theorem swap_layers (wd : List RankedPlace) (sums : List (Option Summary)) (pg : Page) :
    (swap wd sums pg).layers = (clearMarkers pg).layers ++ markersOf pg.nextId wd sums := by
  unfold swap
  split
  · rename_i h
    rw [List.length_eq_zero] at h
    subst h
    simp [forEachPlace, markersOf]
  · rw [forEachPlace_layers]
    rfl

theorem swap_markers (wd : List RankedPlace) (sums : List (Option Summary)) (pg : Page)
    (hnd : (wd.map (fun p => p.title)).Nodup) :
    (swap wd sums pg).markers = entriesOf pg.nextId wd := by
  have h := forEachPlace_markers wd sums { clearMarkers pg with listEl := [] } hnd
    (by intro p _; simp [clearMarkers])
  unfold swap
  split
  · rename_i h0
    rw [List.length_eq_zero] at h0
    subst h0
    rfl
  · rw [h]
    simp [clearMarkers]

theorem swap_listEl (wd : List RankedPlace) (sums : List (Option Summary)) (pg : Page) :
    (swap wd sums pg).listEl =
      if wd.length = 0 then [ListNode.notice emptyText] else rowsOf wd sums := by
  unfold swap
  split
  · rfl
  · rw [forEachPlace_listEl]
    rfl

theorem swap_center (wd : List RankedPlace) (sums : List (Option Summary)) (pg : Page) :
    (swap wd sums pg).center = pg.center := by
  unfold swap
  split
  · exact forEachPlace_center _ _ _
  · exact forEachPlace_center _ _ _

theorem clearMarkers_layers_of_synced (pg : Page) (h : Synced pg) :
    (clearMarkers pg).layers = [] := by
  unfold clearMarkers
  simp only
  rw [List.filter_eq_nil_iff]
  intro m hm
  have hf := h m hm
  have hany : pg.markers.any (fun e => e.2 == m.id) = true := by
    rw [List.any_eq_true]
    exact ⟨(m.click.title, m.id), List.mem_of_find?_eq_some hf, by simp⟩
  simp [hany]

theorem markersOf_id_ge (wd : List RankedPlace) :
    ∀ (n : Nat) (sums : List (Option Summary)) (m : Marker),
      m ∈ markersOf n wd sums → n ≤ m.id := by
  induction wd with
  | nil => intro n sums m hm; simp [markersOf] at hm
  | cons p ps ih =>
    intro n sums m hm
    simp only [markersOf, List.mem_cons] at hm
    rcases hm with rfl | hm
    · exact le_refl _
    · have := ih (n + 1) sums.tail m hm
      omega

theorem find_entriesOf (wd : List RankedPlace) :
    ∀ (n : Nat) (sums : List (Option Summary)) (m : Marker),
      m ∈ markersOf n wd sums →
      (entriesOf n wd).find? (fun e => e.2 == m.id) = some (m.click.title, m.id) := by
  induction wd with
  | nil => intro n sums m hm; simp [markersOf] at hm
  | cons p ps ih =>
    intro n sums m hm
    simp only [markersOf, List.mem_cons] at hm
    rcases hm with rfl | hm
    · simp [entriesOf]
    · have hge := markersOf_id_ge ps (n + 1) sums.tail m hm
      have hne : ¬ (n = m.id) := by omega
      have := ih (n + 1) sums.tail m hm
      have hb : (n == m.id) = false := by simpa using hne
      simp only [entriesOf, List.find?_cons, hb]
      exact this

theorem synced_swap (wd : List RankedPlace) (sums : List (Option Summary)) (pg : Page)
    (hnd : (wd.map (fun p => p.title)).Nodup) (hs : Synced pg) :
    Synced (swap wd sums pg) := by
  intro m hm
  rw [swap_layers, clearMarkers_layers_of_synced pg hs, List.nil_append] at hm
  rw [swap_markers wd sums pg hnd]
  exact find_entriesOf wd pg.nextId sums m hm

theorem synced_start (pg : Page) (hs : Synced pg) : Synced (start pg).1 := hs

theorem synced_setView (pg : Page) (c : LatLng) (z : ℤ) (hs : Synced pg) :
    Synced { pg with center := c, zoom := z } := hs

theorem swap_showsResult (wd : List RankedPlace) (sums : List (Option Summary)) (pg : Page)
    (hnd : (wd.map (fun p => p.title)).Nodup) (hs : Synced pg) :
    showsResult (swap wd sums pg) wd sums := by
  refine ⟨swap_listEl wd sums pg, pg.nextId, ?_, swap_markers wd sums pg hnd⟩
  rw [swap_layers, clearMarkers_layers_of_synced pg hs, List.nil_append]

theorem withDist_titles_nodup (M : MathLib) (c : LatLng) (places : List Place)
    (h : (places.map (fun g => g.title)).Nodup) :
    ((withDist M c places).map (fun p => p.title)).Nodup := by
  have hmap : (places.map (attachDist M c)).map (fun p => p.title) =
      places.map (fun g => g.title) := by
    rw [List.map_map]
    rfl
  have hperm := (sort_perm byDist (places.map (attachDist M c))).map (fun p => p.title)
  have hnd : ((sort byDist (places.map (attachDist M c))).map (fun p => p.title)).Nodup := by
    rw [hperm.nodup_iff, hmap]
    exact h
  unfold withDist
  exact hnd.sublist ((List.take_sublist _ _).map _)

/-! ## The detail panel and the selected marker -/

theorem markersOf_length (wd : List RankedPlace) :
    ∀ (n : Nat) (sums : List (Option Summary)), (markersOf n wd sums).length = wd.length := by
  induction wd with
  | nil => intro n sums; rfl
  | cons p ps ih =>
    intro n sums
    simp only [markersOf, List.length_cons, ih]

theorem title_eq_iff_index_eq (wd : List RankedPlace)
    (hnd : (wd.map (fun p => p.title)).Nodup) (i j : Nat) (p q : RankedPlace)
    (hp : wd[i]? = some p) (hq : wd[j]? = some q) : q.title = p.title ↔ j = i := by
  obtain ⟨hi, hpi⟩ := List.getElem?_eq_some_iff.1 hp
  obtain ⟨hj, hqj⟩ := List.getElem?_eq_some_iff.1 hq
  constructor
  · intro ht
    have hi' : i < (wd.map (fun p => p.title)).length := by simpa using hi
    have hj' : j < (wd.map (fun p => p.title)).length := by simpa using hj
    have hget : (wd.map (fun p => p.title))[j] = (wd.map (fun p => p.title))[i] := by
      simp only [List.getElem_map, hpi, hqj, ht]
    exact (List.Nodup.getElem_inj_iff hnd).1 hget
  · intro hji
    subst hji
    rw [hp] at hq
    exact (congrArg (fun r : RankedPlace => r.title) (Option.some.inj hq)).symm

theorem openDetails_layers (E : Env) (d : Details) (pg : Page) :
    (openDetails E d pg).layers = (selectMarker (some d.title) pg).layers := by
  unfold openDetails
  cases d.s <;> rfl

theorem selectMarker_layers_of_synced (t : List Char) (pg : Page) (hs : Synced pg) :
    (selectMarker (some t) pg).layers =
      pg.layers.map (fun m => { m with selected := decide (m.click.title = t) }) := by
  unfold selectMarker
  simp only
  apply List.map_congr_left
  intro m hm
  rw [hs m hm]
  simp

/-- C7 (as amended): for the `i`-th place of the live result set, a click on
its marker runs the same `openDetails` as a click on its row; when
`API.summary` returned a summary `s` for it the panel is shown
(`panel.hidden = false`) with the thumbnail of `s` if any, its title, its
extract and a link (the page URL of `s`, or the wiki link built from the title
of `s` when `s` has none); when `API.summary` returned `null` the panel is left
as it was, neither shown nor filled; and in both cases, when the titles of the
result set are distinct and every marker that was on the map was recorded in
`markers`, the markers on the map after the click are the markers of the
places, in order, the marker of the `i`-th place selected and no other. -/
theorem openDetails_panel (E : Env) (wd : List RankedPlace) (sums : List (Option Summary))
    (pg : Page) (i : Nat) (p : RankedPlace) (hp : wd[i]? = some p) :
    clickMarker E ((clearMarkers pg).layers.length + i) (swap wd sums pg) =
      clickRow E i (swap wd sums pg) ∧
    (∀ s : Summary, sums[i]? = some (some s) →
      (clickRow E i (swap wd sums pg)).panelHidden = false ∧
      (clickRow E i (swap wd sums pg)).panelBody =
        (match truthyString s.thumbnail with
          | some src => [PanelNode.img src]
          | none => []) ++
        [PanelNode.title s.title, PanelNode.text ((truthyString s.extract).getD []),
         PanelNode.link (match truthyString s.page with
          | some u => u
          | none => "https://ar.wikipedia.org/wiki/".toList ++ E.encodeURIComponent s.title)]) ∧
    (sums[i]? = some none →
      (clickRow E i (swap wd sums pg)).panelHidden = pg.panelHidden ∧
      (clickRow E i (swap wd sums pg)).panelBody = pg.panelBody) ∧
    ((wd.map (fun q => q.title)).Nodup → Synced pg →
      ∀ j : Nat, (clickRow E i (swap wd sums pg)).layers[j]? =
        wd[j]?.map (fun q =>
          { id := pg.nextId + j, lat := q.lat, lon := q.lon, selected := decide (j = i),
            click := { title := q.title, s := sums[j]?.join } })) := by
  have hrow := swap_listEl_getElem? wd sums pg i p hp
  have hne : wd.length ≠ 0 := by
    intro h0
    rw [List.length_eq_zero] at h0
    simp [h0] at hp
  have hlay : (swap wd sums pg).layers[(clearMarkers pg).layers.length + i]? =
      some { id := pg.nextId + i, lat := p.lat, lon := p.lon, selected := false,
             click := { title := p.title, s := sums[i]?.join } } := by
    unfold swap
    simp only [hne, if_false]
    rw [forEachPlace_layers]
    rw [List.getElem?_append_right (by simp)]
    simpa [clearMarkers] using markersOf_getElem? wd pg.nextId sums i p hp
  refine ⟨?_, ?_, ?_, ?_⟩
  · unfold clickMarker clickRow
    rw [hrow, hlay]
  · intro s hs
    unfold clickRow
    have hj : (some (some s) : Option (Option Summary)).join = some s := rfl
    rw [hrow, hs, hj]
    exact ⟨rfl, rfl⟩
  · intro hs
    unfold clickRow
    have hj : (some none : Option (Option Summary)).join = none := rfl
    rw [hrow, hs, hj]
    exact swap_panel wd sums pg
  · intro hnd hs j
    have hsy := synced_swap wd sums pg hnd hs
    have hlayers : (swap wd sums pg).layers = markersOf pg.nextId wd sums := by
      rw [swap_layers, clearMarkers_layers_of_synced pg hs, List.nil_append]
    have hclick : clickRow E i (swap wd sums pg) =
        openDetails E { title := p.title, s := sums[i]?.join } (swap wd sums pg) := by
      unfold clickRow
      rw [hrow]
    rw [hclick, openDetails_layers, selectMarker_layers_of_synced _ _ hsy, hlayers,
      List.getElem?_map]
    cases hq : wd[j]? with
    | none =>
      have hlen : wd.length ≤ j := List.getElem?_eq_none_iff.1 hq
      have hm : (markersOf pg.nextId wd sums)[j]? = none :=
        List.getElem?_eq_none (by rw [markersOf_length]; exact hlen)
      rw [hm]
      rfl
    | some q =>
      rw [markersOf_getElem? wd pg.nextId sums j q hq]
      have hiff := title_eq_iff_index_eq wd hnd i j p q hp hq
      simp only [Option.map_some', Option.some.injEq, Marker.mk.injEq, true_and]
      exact ⟨decide_eq_decide.2 hiff, trivial⟩

/-! ## Overlapping reload cycles -/

theorem lookup_append_of_none {α : Type} (id : Nat) (l l' : List (Nat × α))
    (h : l.lookup id = none) : (l ++ l').lookup id = l'.lookup id := by
  induction l with
  | nil => rfl
  | cons e es ih =>
    obtain ⟨k, v⟩ := e
    by_cases hk : id = k
    · subst hk
      simp [List.lookup] at h
    · have hb : (id == k) = false := by simpa using hk
      simp only [List.cons_append, List.lookup, hb] at h ⊢
      exact ih h

theorem lookup_append_of_some {α : Type} (id : Nat) (l l' : List (Nat × α)) (x : α)
    (h : l.lookup id = some x) : (l ++ l').lookup id = some x := by
  induction l with
  | nil => simp [List.lookup] at h
  | cons e es ih =>
    obtain ⟨k, v⟩ := e
    by_cases hk : id = k
    · subst hk
      simpa [List.lookup] using h
    · have hb : (id == k) = false := by simpa using hk
      simp only [List.cons_append, List.lookup, hb] at h ⊢
      exact ih h

theorem any_eq_false_of_lookup_none {α : Type} (id : Nat) (l : List (Nat × α))
    (h : l.lookup id = none) : l.any (fun e => e.1 == id) = false := by
  induction l with
  | nil => rfl
  | cons e es ih =>
    obtain ⟨k, v⟩ := e
    by_cases hk : id = k
    · subst hk
      simp [List.lookup] at h
    · have hb : (id == k) = false := by simpa using hk
      simp only [List.lookup, hb] at h
      have hk' : (k == id) = false := by simpa using fun h' : k = id => hk h'.symm
      simp [List.any_cons, hk', ih h]

theorem lookup_replace_self {α : Type} (id : Nat) (x y : α) (l : List (Nat × α))
    (h : l.lookup id = some x) :
    (l.map (fun e => if e.1 == id then (id, y) else e)).lookup id = some y := by
  induction l with
  | nil => simp [List.lookup] at h
  | cons e es ih =>
    obtain ⟨k, v⟩ := e
    by_cases hk : k = id
    · have hh : (if ((k, v) : ℕ × α).1 == id then (id, y) else (k, v)) = (id, y) :=
        if_pos (by simpa using hk)
      show List.lookup id ((if ((k, v) : ℕ × α).1 == id then (id, y) else (k, v)) ::
        List.map _ es) = some y
      rw [hh]
      simp [List.lookup]
    · have hh : (if ((k, v) : ℕ × α).1 == id then (id, y) else (k, v)) = (k, v) :=
        if_neg (by simpa using hk)
      have hb : (id == k) = false := by simpa using fun h' : id = k => hk h'.symm
      show List.lookup id ((if ((k, v) : ℕ × α).1 == id then (id, y) else (k, v)) ::
        List.map _ es) = some y
      rw [hh]
      simp only [List.lookup, hb] at h ⊢
      exact ih h

theorem lookup_replace_other {α : Type} (id id' : Nat) (y : α) (l : List (Nat × α))
    (hne : id' ≠ id) :
    (l.map (fun e => if e.1 == id then (id, y) else e)).lookup id' = l.lookup id' := by
  induction l with
  | nil => rfl
  | cons e es ih =>
    obtain ⟨k, v⟩ := e
    show List.lookup id' ((if ((k, v) : ℕ × α).1 == id then (id, y) else (k, v)) ::
        List.map _ es) = _
    by_cases hk : k = id
    · have hh : (if ((k, v) : ℕ × α).1 == id then (id, y) else (k, v)) = (id, y) :=
        if_pos (by simpa using hk)
      have hb : (id' == id) = false := by simpa using hne
      have hb' : (id' == k) = false := by rw [hk]; exact hb
      rw [hh]
      simp only [List.lookup, hb, hb']
      exact ih
    · have hh : (if ((k, v) : ℕ × α).1 == id then (id, y) else (k, v)) = (k, v) :=
        if_neg (by simpa using hk)
      rw [hh]
      simp only [List.lookup]
      rw [ih]

theorem lookup_remove_other {α : Type} (id id' : Nat) (l : List (Nat × α)) (hne : id' ≠ id) :
    (l.filter (fun e => !(e.1 == id))).lookup id' = l.lookup id' := by
  induction l with
  | nil => rfl
  | cons e es ih =>
    obtain ⟨k, v⟩ := e
    by_cases hk : k = id
    · have hf : ¬ ((!(((k, v) : ℕ × α).1 == id)) = true) := by simpa using hk
      have hb : (id' == k) = false := by rw [hk]; simpa using hne
      have hfc : List.filter (fun e : ℕ × α => !(e.1 == id)) ((k, v) :: es) =
          List.filter (fun e : ℕ × α => !(e.1 == id)) es := List.filter_cons_of_neg hf
      rw [hfc, ih]
      simp only [List.lookup, hb]
    · have hf : (!(((k, v) : ℕ × α).1 == id)) = true := by simpa using hk
      have hfc : List.filter (fun e : ℕ × α => !(e.1 == id)) ((k, v) :: es) =
          (k, v) :: List.filter (fun e : ℕ × α => !(e.1 == id)) es := List.filter_cons_of_pos hf
      rw [hfc]
      simp only [List.lookup]
      rw [ih]

theorem step_run (E : Env) (w : World) (id : Nat) (h : w.calls.lookup id = none) :
    (step E w (.run id)).page = (start w.page).1 ∧
    (step E w (.run id)).calls.lookup id = some (start w.page).2 ∧
    ∀ id', id' ≠ id → (step E w (.run id)).calls.lookup id' = w.calls.lookup id' := by
  have hany := any_eq_false_of_lookup_none id w.calls h
  have hs : step E w (.run id) =
      { page := (start w.page).1, calls := w.calls ++ [(id, (start w.page).2)] } := by
    show (if w.calls.any (fun e => e.1 == id) = true then w else _) = _
    rw [hany]
    rfl
  rw [hs]
  refine ⟨rfl, ?_, ?_⟩
  · show List.lookup id (w.calls ++ [(id, (start w.page).2)]) = _
    rw [lookup_append_of_none id _ _ h]
    simp [List.lookup]
  · intro id' hne
    show List.lookup id' (w.calls ++ [(id, (start w.page).2)]) = _
    cases hl : w.calls.lookup id' with
    | none =>
      rw [lookup_append_of_none id' _ _ hl]
      have hb : (id' == id) = false := by simpa using hne
      simp [List.lookup, hb]
    | some x => exact lookup_append_of_some id' _ _ x hl

theorem step_geosearchOk (E : Env) (w : World) (id : Nat) (places : List Place)
    (c : LatLng) (r : ℤ) (l : ℕ) (h : w.calls.lookup id = some (.geosearch c r l)) :
    (step E w (.geosearchOk id places)).page = w.page ∧
    (step E w (.geosearchOk id places)).calls.lookup id =
      some (.summaries (withDist E.math c places)) ∧
    ∀ id', id' ≠ id →
      (step E w (.geosearchOk id places)).calls.lookup id' = w.calls.lookup id' := by
  have hs : step E w (.geosearchOk id places) =
      { w with calls := w.calls.map (fun e =>
          if e.1 == id then (id, Suspended.summaries (withDist E.math c places)) else e) } := by
    simp only [step, h]
  rw [hs]
  exact ⟨rfl, lookup_replace_self id _ _ _ h, fun id' hne => lookup_replace_other id id' _ _ hne⟩

theorem step_summariesOk (E : Env) (w : World) (id : Nat) (sums : List (Option Summary))
    (wd : List RankedPlace) (h : w.calls.lookup id = some (.summaries wd)) :
    (step E w (.summariesOk id sums)).page = swap wd sums w.page ∧
    ∀ id', id' ≠ id →
      (step E w (.summariesOk id sums)).calls.lookup id' = w.calls.lookup id' := by
  have hs : step E w (.summariesOk id sums) =
      { page := swap wd sums w.page, calls := w.calls.filter (fun e => !(e.1 == id)) } := by
    simp only [step, h]
  rw [hs]
  exact ⟨rfl, fun id' hne => lookup_remove_other id id' _ hne⟩

theorem step_setView (E : Env) (w : World) (c : LatLng) (z : ℤ) :
    (step E w (.setView c z)).calls = w.calls ∧
    (step E w (.setView c z)).page.center = c := ⟨rfl, rfl⟩

theorem lookup_remove_self {α : Type} (id : Nat) (l : List (Nat × α)) :
    (l.filter (fun e => !(e.1 == id))).lookup id = none := by
  induction l with
  | nil => rfl
  | cons e es ih =>
    obtain ⟨k, v⟩ := e
    by_cases hk : k = id
    · have hf : ¬ ((!(((k, v) : ℕ × α).1 == id)) = true) := by simpa using hk
      have hfc : List.filter (fun e : ℕ × α => !(e.1 == id)) ((k, v) :: es) =
          List.filter (fun e : ℕ × α => !(e.1 == id)) es := List.filter_cons_of_neg hf
      rw [hfc, ih]
    · have hf : (!(((k, v) : ℕ × α).1 == id)) = true := by simpa using hk
      have hfc : List.filter (fun e : ℕ × α => !(e.1 == id)) ((k, v) :: es) =
          (k, v) :: List.filter (fun e : ℕ × α => !(e.1 == id)) es := List.filter_cons_of_pos hf
      have hb : (id == k) = false := by simpa using fun h' : id = k => hk h'.symm
      rw [hfc]
      simp only [List.lookup, hb]
      exact ih

theorem any_eq_true_of_lookup_some {α : Type} (id : Nat) (l : List (Nat × α)) (x : α)
    (h : l.lookup id = some x) : l.any (fun e => e.1 == id) = true := by
  cases ha : l.any (fun e => e.1 == id) with
  | true => rfl
  | false =>
    exfalso
    induction l with
    | nil => simp [List.lookup] at h
    | cons e es ih =>
      obtain ⟨k, v⟩ := e
      simp only [List.any_cons, Bool.or_eq_false_iff] at ha
      have hk : (k == id) = false := ha.1
      have hb : (id == k) = false := by
        have : ¬ k = id := by simpa using hk
        simpa using fun h' : id = k => this h'.symm
      simp only [List.lookup, hb] at h
      exact ih h ha.2

theorem run_page (E : Env) (w : World) (x : Nat) :
    (step E w (.run x)).page =
      if w.calls.lookup x = none then (start w.page).1 else w.page := by
  cases h : w.calls.lookup x with
  | none => simpa using (step_run E w x h).1
  | some k =>
    have hany := any_eq_true_of_lookup_some x w.calls k h
    have hs : step E w (.run x) = w := by
      show (if w.calls.any (fun e => e.1 == x) = true then w else _) = _
      rw [if_pos hany]
    rw [hs]
    simp

theorem run_lookup_self (E : Env) (w : World) (x : Nat) :
    (step E w (.run x)).calls.lookup x = some ((w.calls.lookup x).getD (start w.page).2) := by
  cases h : w.calls.lookup x with
  | none => simpa using (step_run E w x h).2.1
  | some k =>
    have hany := any_eq_true_of_lookup_some x w.calls k h
    have hs : step E w (.run x) = w := by
      show (if w.calls.any (fun e => e.1 == x) = true then w else _) = _
      rw [if_pos hany]
    rw [hs, h]
    rfl

theorem run_lookup_other (E : Env) (w : World) (x y : Nat) (hne : y ≠ x) :
    (step E w (.run x)).calls.lookup y = w.calls.lookup y := by
  cases h : w.calls.lookup x with
  | none => exact (step_run E w x h).2.2 y hne
  | some k =>
    have hany := any_eq_true_of_lookup_some x w.calls k h
    have hs : step E w (.run x) = w := by
      show (if w.calls.any (fun e => e.1 == x) = true then w else _) = _
      rw [if_pos hany]
    rw [hs]

theorem setView_page (E : Env) (w : World) (c : LatLng) (z : ℤ) :
    (step E w (.setView c z)).page = { w.page with center := c, zoom := z } := rfl

theorem setView_calls (E : Env) (w : World) (c : LatLng) (z : ℤ) :
    (step E w (.setView c z)).calls = w.calls := rfl

theorem geosearchOk_page (E : Env) (w : World) (x : Nat) (places : List Place) :
    (step E w (.geosearchOk x places)).page = w.page := by
  cases h : w.calls.lookup x with
  | none => simp only [step, h]
  | some k =>
    cases k with
    | geosearch c r l => exact (step_geosearchOk E w x places c r l h).1
    | summaries wd => simp only [step, h]

theorem geosearchOk_lookup_self (E : Env) (w : World) (x : Nat) (places : List Place) :
    (step E w (.geosearchOk x places)).calls.lookup x =
      (w.calls.lookup x).map (afterGeosearch E places) := by
  cases h : w.calls.lookup x with
  | none => simp only [step, h]; rfl
  | some k =>
    cases k with
    | geosearch c r l => exact (step_geosearchOk E w x places c r l h).2.1
    | summaries wd => simp only [step, h]; rfl

theorem geosearchOk_lookup_other (E : Env) (w : World) (x y : Nat) (places : List Place)
    (hne : y ≠ x) :
    (step E w (.geosearchOk x places)).calls.lookup y = w.calls.lookup y := by
  cases h : w.calls.lookup x with
  | none => simp only [step, h]
  | some k =>
    cases k with
    | geosearch c r l => exact (step_geosearchOk E w x places c r l h).2.2 y hne
    | summaries wd => simp only [step, h]

theorem summariesOk_page (E : Env) (w : World) (x : Nat) (sums : List (Option Summary)) :
    (step E w (.summariesOk x sums)).page = pageAfterSummaries sums w.page (w.calls.lookup x) := by
  cases h : w.calls.lookup x with
  | none => simp only [step, h]; rfl
  | some k =>
    cases k with
    | geosearch c r l => simp only [step, h]; rfl
    | summaries wd => exact (step_summariesOk E w x sums wd h).1

theorem summariesOk_lookup_self (E : Env) (w : World) (x : Nat)
    (sums : List (Option Summary)) :
    (step E w (.summariesOk x sums)).calls.lookup x =
      (w.calls.lookup x).bind afterSummaries := by
  cases h : w.calls.lookup x with
  | none => simp only [step, h]; rfl
  | some k =>
    cases k with
    | geosearch c r l => simp only [step, h]; rfl
    | summaries wd =>
      simp only [step, h]
      exact lookup_remove_self x w.calls

theorem summariesOk_lookup_other (E : Env) (w : World) (x y : Nat)
    (sums : List (Option Summary)) (hne : y ≠ x) :
    (step E w (.summariesOk x sums)).calls.lookup y = w.calls.lookup y := by
  cases h : w.calls.lookup x with
  | none => simp only [step, h]
  | some k =>
    cases k with
    | geosearch c r l => simp only [step, h]
    | summaries wd => exact (step_summariesOk E w x sums wd h).2 y hne

theorem start_fst_center (pg : Page) : (start pg).1.center = pg.center := rfl

theorem start_snd (pg : Page) :
    (start pg).2 = Suspended.geosearch pg.center (geosearchRadius pg.zoom) geosearchLimit := rfl


theorem synced_of_layers_markers (pg pg' : Page) (hl : pg'.layers = pg.layers)
    (hm : pg'.markers = pg.markers) (hs : Synced pg) : Synced pg' := by
  intro m h
  rw [hl] at h
  rw [hm]
  exact hs m h

theorem step_synced (E : Env) (w : World) (e : Event)
    (hs : Synced w.page) (hn : NodupResults w) : Synced (step E w e).page := by
  cases e with
  | setView c z => exact hs
  | run x =>
    rw [run_page]
    split
    · exact hs
    · exact hs
  | geosearchOk x places =>
    rw [geosearchOk_page]
    exact hs
  | geosearchThrows x =>
    cases h : w.calls.lookup x with
    | none => simp only [step, h]; exact hs
    | some k =>
      cases k with
      | geosearch c r l => simp only [step, h]; exact hs
      | summaries wd => simp only [step, h]; exact hs
  | summariesOk x sums =>
    rw [summariesOk_page]
    cases h : w.calls.lookup x with
    | none => exact hs
    | some k =>
      cases k with
      | geosearch c r l => exact hs
      | summaries wd => exact synced_swap wd sums w.page (hn x wd h) hs
  | summariesThrow x =>
    cases h : w.calls.lookup x with
    | none => simp only [step, h]; exact hs
    | some k =>
      cases k with
      | geosearch c r l => simp only [step, h]; exact hs
      | summaries wd => simp only [step, h]; exact hs

theorem lookup_of_lookup_remove {α : Type} (id id' : Nat) (l : List (Nat × α)) (k : α)
    (h : (l.filter (fun e => !(e.1 == id))).lookup id' = some k) : l.lookup id' = some k := by
  by_cases hne : id' = id
  · subst hne
    rw [lookup_remove_self] at h
    exact absurd h (by simp)
  · rw [lookup_remove_other id id' l hne] at h
    exact h

theorem step_nodupResults (E : Env) (w : World) (e : Event) (he : e.nodupTitles)
    (hn : NodupResults w) : NodupResults (step E w e) := by
  intro y wd hy
  cases e with
  | setView c z => exact hn y wd hy
  | run x =>
    by_cases hne : y = x
    · subst hne
      rw [run_lookup_self] at hy
      cases h : w.calls.lookup y with
      | none =>
        rw [h] at hy
        simp [start_snd] at hy
      | some k =>
        rw [h] at hy
        simp only [Option.getD_some, Option.some.injEq] at hy
        subst hy
        exact hn y wd h
    · rw [run_lookup_other E w x y hne] at hy
      exact hn y wd hy
  | geosearchOk x places =>
    by_cases hne : y = x
    · subst hne
      rw [geosearchOk_lookup_self] at hy
      cases h : w.calls.lookup y with
      | none =>
        rw [h] at hy
        simp at hy
      | some k =>
        rw [h] at hy
        cases k with
        | geosearch c r l =>
          simp only [Option.map_some', afterGeosearch, Option.some.injEq,
            Suspended.summaries.injEq] at hy
          subst hy
          exact withDist_titles_nodup E.math c places he
        | summaries wd' =>
          simp only [Option.map_some', afterGeosearch, Option.some.injEq,
            Suspended.summaries.injEq] at hy
          subst hy
          exact hn y wd' h
    · rw [geosearchOk_lookup_other E w x y places hne] at hy
      exact hn y wd hy
  | geosearchThrows x =>
    cases h : w.calls.lookup x with
    | none => simp only [step, h] at hy; exact hn y wd hy
    | some k =>
      cases k with
      | geosearch c r l =>
        simp only [step, h] at hy
        exact hn y wd (lookup_of_lookup_remove x y _ _ hy)
      | summaries wd' => simp only [step, h] at hy; exact hn y wd hy
  | summariesOk x sums =>
    cases h : w.calls.lookup x with
    | none => simp only [step, h] at hy; exact hn y wd hy
    | some k =>
      cases k with
      | geosearch c r l => simp only [step, h] at hy; exact hn y wd hy
      | summaries wd' =>
        simp only [step, h] at hy
        exact hn y wd (lookup_of_lookup_remove x y _ _ hy)
  | summariesThrow x =>
    cases h : w.calls.lookup x with
    | none => simp only [step, h] at hy; exact hn y wd hy
    | some k =>
      cases k with
      | geosearch c r l => simp only [step, h] at hy; exact hn y wd hy
      | summaries wd' =>
        simp only [step, h] at hy
        exact hn y wd (lookup_of_lookup_remove x y _ _ hy)

theorem exec_invariant (E : Env) (events : List Event) :
    ∀ w : World, (∀ e ∈ events, e.nodupTitles) → Synced w.page → NodupResults w →
      Synced (exec E w events).page ∧ NodupResults (exec E w events) := by
  induction events with
  | nil => intro w _ hs hn; exact ⟨hs, hn⟩
  | cons e es ih =>
    intro w he hs hn
    have h1 := step_synced E w e hs hn
    have h2 := step_nodupResults E w e (he e (List.mem_cons_self _ _)) hn
    exact ih (step E w e) (fun e' he' => he e' (List.mem_cons_of_mem _ he')) h1 h2

theorem exec_append_singleton (E : Env) (w : World) (events : List Event) (e : Event) :
    exec E w (events ++ [e]) = step E (exec E w events) e := by
  simp only [exec, List.foldl_append, List.foldl_cons, List.foldl_nil]

/-- The last event resumes a run at its swap. -/
theorem exec_summariesOk_last (E : Env) (w : World) (events : List Event) (x : Nat)
    (sums : List (Option Summary)) (wd : List RankedPlace)
    (he : ∀ e ∈ events, e.nodupTitles) (hs : Synced w.page) (hn : NodupResults w)
    (hl : (exec E w events).calls.lookup x = some (.summaries wd)) :
    showsResult (exec E w (events ++ [Event.summariesOk x sums])).page wd sums := by
  have hinv := exec_invariant E events w he hs hn
  rw [exec_append_singleton, (step_summariesOk E _ x sums wd hl).1]
  exact swap_showsResult wd sums _ (hinv.2 x wd hl) hinv.1

theorem exec_summariesOk_getLast (E : Env) (w : World) (events : List Event) (x : Nat)
    (sums : List (Option Summary)) (wd : List RankedPlace)
    (hlast : events.getLast? = some (Event.summariesOk x sums))
    (he : ∀ e ∈ events.dropLast, e.nodupTitles) (hs : Synced w.page) (hn : NodupResults w)
    (hl : (exec E w events.dropLast).calls.lookup x = some (.summaries wd)) :
    showsResult (exec E w events).page wd sums := by
  have hsplit : events.dropLast ++ [Event.summariesOk x sums] = events :=
    List.dropLast_append_getLast? _ (by rw [hlast]; rfl)
  rw [← hsplit]
  exact exec_summariesOk_last E w events.dropLast x sums wd he hs hn hl

/-- C4 (as amended): take a page on which every marker of the map is recorded
in `markers` under its title, geosearch results with distinct titles, a reload
cycle `a` and a second cycle `b` that starts, after the map has moved, at any
moment after `a` has started (before or after the geosearch of `a` resolves,
before or after its summaries resolve). For every order in which the calls of
the two cycles resolve, the nearby list, the markers on the map and the entries
of `markers` at the end are exactly those of the cycle whose summaries resolved
last: of `b` when the summaries of `b` resolve last, of the stale cycle `a`
when those of `a` resolve last. -/
theorem loadNearby_last_resolved_wins (E : Env) (w0 : World) (a b : Nat) (hab : a ≠ b)
    (ha : w0.calls.lookup a = none) (hb : w0.calls.lookup b = none)
    (hw : Synced w0.page) (hn : NodupResults w0)
    (cB : LatLng) (zB : ℤ) (pA pB : List Place) (sA sB : List (Option Summary))
    (hA : (pA.map (fun g => g.title)).Nodup) (hB : (pB.map (fun g => g.title)).Nodup)
    (rest : List Event)
    (hrest : rest ∈ interleavings [Event.geosearchOk a pA, Event.summariesOk a sA]
      [Event.setView cB zB, Event.run b, Event.geosearchOk b pB, Event.summariesOk b sB]) :
    (rest.getLast? = some (Event.summariesOk b sB) →
      showsResult (exec E w0 (Event.run a :: rest)).page (withDist E.math cB pB) sB) ∧
    (rest.getLast? = some (Event.summariesOk a sA) →
      showsResult (exec E w0 (Event.run a :: rest)).page
        (withDist E.math w0.page.center pA) sA) := by
  have hba : b ≠ a := fun h => hab h.symm
  simp only [interleavings, List.map_cons, List.map_nil, List.cons_append, List.nil_append,
    List.mem_cons, List.mem_singleton, List.not_mem_nil, or_false, List.mem_append,
    List.append_nil] at hrest
  rcases hrest with h | h | h | h | h | h | h | h | h | h | h | h | h | h | h
  all_goals
    subst h
    refine ⟨fun h => ?_, fun h => ?_⟩
  all_goals
    first
    | (exfalso
       simp only [List.getLast?_cons_cons, List.getLast?_singleton, Option.some.injEq,
         Event.summariesOk.injEq] at h
       first
       | exact hab h.1
       | exact hba h.1)
    | (refine exec_summariesOk_getLast E w0 _ _ _ _ rfl ?_ hw hn ?_
       · intro e he
         simp only [List.dropLast_cons₂, List.dropLast_single, List.mem_cons,
           List.mem_singleton, List.not_mem_nil, or_false] at he
         rcases he with rfl | rfl | rfl | rfl | rfl | rfl
         all_goals first | exact hA | exact hB | exact trivial
       · simp only [List.dropLast_cons₂, List.dropLast_single, exec, List.foldl_cons,
           List.foldl_nil, run_page, run_lookup_self,
           run_lookup_other, setView_page, setView_calls, geosearchOk_page,
           geosearchOk_lookup_self, geosearchOk_lookup_other, summariesOk_page,
           summariesOk_lookup_self, summariesOk_lookup_other, ha, hb, ne_eq, hab, hba,
           not_false_eq_true, Option.map_some', Option.map_none', Option.bind_some,
           Option.bind_none, Option.some_bind, Option.none_bind, Option.getD_none,
           Option.getD_some, start_snd, start_fst_center,
           swap_center, afterGeosearch, afterSummaries, pageAfterSummaries, if_true, if_false,
           reduceCtorEq])

/-! ## Labels and the locator string -/

theorem fmtDist_50 : fmtDist 50 = "50 م".toList := by decide!
theorem fmtDist_100 : fmtDist 100 = "100 م".toList := by decide!
theorem fmtDist_5000 : fmtDist 5000 = "5 كم".toList := by decide!

/-- C5 (as amended): when geosearch returns three places at 100 m, 5000 m and
50 m in this order, the ranked list and the rows are in the order 50, 100,
5000 and the labels of `fmtDist` are "50 م", "100 م" and "5 كم". -/
theorem nearby_rows_scenario (E : Env) (c : LatLng) (g1 g2 g3 : Place)
    (sums : List (Option Summary)) (pg : Page)
    (h1 : distanceMeters E.math c.lat c.lng g1.lat g1.lon = 100)
    (h2 : distanceMeters E.math c.lat c.lng g2.lat g2.lon = 5000)
    (h3 : distanceMeters E.math c.lat c.lng g3.lat g3.lon = 50) :
    (withDist E.math c [g1, g2, g3]).map (fun p => (p.toPlace, p.dist)) =
      [(g3, 50), (g1, 100), (g2, 5000)] ∧
    rowTitles (swap (withDist E.math c [g1, g2, g3]) sums pg) = [g3.title, g1.title, g2.title] ∧
    (withDist E.math c [g1, g2, g3]).map (fun p => fmtDist p.dist) =
      ["50 م".toList, "100 م".toList, "5 كم".toList] ∧
    rowMetas (swap (withDist E.math c [g1, g2, g3]) sums pg) =
      ["المسافة: 50 م".toList, "المسافة: 100 م".toList, "المسافة: 5 كم".toList] := by
  have hwd : withDist E.math c [g1, g2, g3] =
      [{ g3 with dist := 50 }, { g1 with dist := 100 }, { g2 with dist := 5000 }] := by
    norm_num [withDist, attachDist, h1, h2, h3, sort, insertSorted, byDist]
  rw [hwd]
  refine ⟨rfl, ?_, ?_, ?_⟩
  · simp [swap, forEachPlace, addPlace, rowTitles, clearMarkers]
  · simp only [List.map, fmtDist_50, fmtDist_100, fmtDist_5000]
  · simp only [swap, forEachPlace, addPlace, rowMetas, clearMarkers, fmtDist_50, fmtDist_100,
      fmtDist_5000]
    simp

/-- C5, witness: three places at 100 m, 5000 m and 50 m of the center under
`sampleMath`. -/
theorem nearby_rows_scenario_witness :
    rowMetas (swap (withDist sampleMath ⟨0, 0⟩
      [⟨['a'], 20, 0, 1⟩, ⟨['b'], 100, 100, 2⟩, ⟨['c'], 10, 10, 3⟩]) [] Page.init) =
      ["المسافة: 50 م".toList, "المسافة: 100 م".toList, "المسافة: 5 كم".toList] :=
  (nearby_rows_scenario sampleEnv ⟨0, 0⟩
    ⟨['a'], 20, 0, 1⟩ ⟨['b'], 100, 100, 2⟩ ⟨['c'], 10, 10, 3⟩ [] Page.init
    (by norm_num [distanceMeters, sampleEnv, sampleMath])
    (by norm_num [distanceMeters, sampleEnv, sampleMath])
    (by norm_num [distanceMeters, sampleEnv, sampleMath])).2.2.2

/-- C5, counterexample: the label of 5000 m is "5 كم", not "5.0 كم". -/
theorem fmtDist_5000_label : fmtDist 5000 = "5 كم".toList ∧ fmtDist 5000 ≠ "5.0 كم".toList := by
  decide!

/-- C3, at the failing input: for zoom 0, latitude 0 and longitude 0 `writeHash`
writes `#0/0.0000/0.0000`, and `parseHash` reads it as zoom 12, latitude
24.7136 and longitude 46.6753. -/
theorem parseHash_writeHash_zero :
    writeHash [] 0 0 0 = "#0/0.0000/0.0000".toList ∧
    parseHash (writeHash [] 0 0 0) =
      { z := .fin 12, lat := .fin (247136 / 10000), lon := .fin (466753 / 10000) } := by
  decide!

/-- C8, at the failing input: for `#0/abc/10` `parseHash` returns the default
latitude and the given longitude 10, but zoom 12 instead of the given zoom 0;
for `#7/abc/10` it returns the given zoom 7. -/
theorem parseHash_zero_zoom :
    parseHash "#0/abc/10".toList =
      { z := .fin 12, lat := .fin (247136 / 10000), lon := .fin 10 } ∧
    parseHash "#7/abc/10".toList =
      { z := .fin 7, lat := .fin (247136 / 10000), lon := .fin 10 } := by
  decide!

/-! ## Concrete runs -/

/-- C2, witness: 21 places give a ranked list of 20 entries. -/
theorem withDist_truncates_after_sort_witness :
    20 < (List.replicate 21 placeA).length ∧
    (withDist sampleMath ⟨0, 0⟩ (List.replicate 21 placeA)).length = 20 :=
  ⟨by decide,
   (withDist_truncates_after_sort sampleMath ⟨0, 0⟩ (List.replicate 21 placeA)).1 (by decide)⟩

/-- C4, witness: cycle 0 and cycle 1 from the page as loaded; cycle 1 starts
after the geosearch of cycle 0 has resolved, and its summaries resolve last. -/
theorem loadNearby_last_resolved_wins_witness :
    showsResult
      (exec sampleEnv World.init
        [Event.run 0, Event.geosearchOk 0 [placeA], Event.setView ⟨25, 47⟩ 13, Event.run 1,
         Event.geosearchOk 1 [placeB], Event.summariesOk 0 [none],
         Event.summariesOk 1 [none]]).page
      (withDist sampleEnv.math ⟨25, 47⟩ [placeB]) [none] :=
  (loadNearby_last_resolved_wins sampleEnv World.init 0 1 (by decide) rfl rfl
    (by intro m hm; simp [World.init, Page.init] at hm)
    (by intro id wd h; simp [World.init, List.lookup] at h)
    ⟨25, 47⟩ 13 [placeA] [placeB] [none] [none] (by simp) (by simp)
    [Event.geosearchOk 0 [placeA], Event.setView ⟨25, 47⟩ 13, Event.run 1,
     Event.geosearchOk 1 [placeB], Event.summariesOk 0 [none], Event.summariesOk 1 [none]]
    (by simp [interleavings])).1 (by simp)

/-- C4, counterexample: cycle 0 starts, the map moves, cycle 1 starts; the calls
of cycle 1 resolve first and its swap shows `B`; then the calls of cycle 0
resolve and its swap runs, after cycle 1 has started and finished: the list
and the markers end as those of cycle 0 (`A`), not of cycle 1. -/
theorem loadNearby_stale_cycle_overwrites :
    rowTitles (exec sampleEnv World.init
      [Event.run 0, Event.setView ⟨25, 47⟩ 13, Event.run 1,
       Event.geosearchOk 1 [placeB], Event.summariesOk 1 [none]]).page = [['B']] ∧
    rowTitles (exec sampleEnv World.init
      [Event.run 0, Event.setView ⟨25, 47⟩ 13, Event.run 1,
       Event.geosearchOk 1 [placeB], Event.summariesOk 1 [none],
       Event.geosearchOk 0 [placeA], Event.summariesOk 0 [none]]).page = [['A']] ∧
    markerTitles (exec sampleEnv World.init
      [Event.run 0, Event.setView ⟨25, 47⟩ 13, Event.run 1,
       Event.geosearchOk 1 [placeB], Event.summariesOk 1 [none],
       Event.geosearchOk 0 [placeA], Event.summariesOk 0 [none]]).page = [['A']] := by
  decide!

/-- C6, at the failing input: a first cycle shows the place `A`; a second cycle
whose geosearch throws ends with no suspended run, the marker of `A` still on
the map and recorded in `markers`, and a list that holds only the error
notice, so no row at all. -/
theorem failed_reload_keeps_markers :
    (exec sampleEnv World.init
      [Event.run 0, Event.geosearchOk 0 [placeA], Event.summariesOk 0 [none],
       Event.run 1, Event.geosearchThrows 1]).calls = [] ∧
    markerTitles (exec sampleEnv World.init
      [Event.run 0, Event.geosearchOk 0 [placeA], Event.summariesOk 0 [none],
       Event.run 1, Event.geosearchThrows 1]).page = [['A']] ∧
    (exec sampleEnv World.init
      [Event.run 0, Event.geosearchOk 0 [placeA], Event.summariesOk 0 [none],
       Event.run 1, Event.geosearchThrows 1]).page.markers.map Prod.fst = [['A']] ∧
    rowTitles (exec sampleEnv World.init
      [Event.run 0, Event.geosearchOk 0 [placeA], Event.summariesOk 0 [none],
       Event.run 1, Event.geosearchThrows 1]).page = [] ∧
    (exec sampleEnv World.init
      [Event.run 0, Event.geosearchOk 0 [placeA], Event.summariesOk 0 [none],
       Event.run 1, Event.geosearchThrows 1]).page.listEl = [ListNode.notice errorText] := by
  decide!

/-- C7, witness: the place `A` with no summary, on the page as loaded: after a
click on its row the panel is as it was, and its marker is the one marker on
the map and is selected. -/
theorem openDetails_panel_witness :
    (clickRow sampleEnv 0
      (swap [attachDist sampleMath ⟨0, 0⟩ placeA] [none] Page.init)).panelHidden =
      Page.init.panelHidden ∧
    (clickRow sampleEnv 0
      (swap [attachDist sampleMath ⟨0, 0⟩ placeA] [none] Page.init)).layers[0]? =
      [attachDist sampleMath ⟨0, 0⟩ placeA][0]?.map (fun q =>
        { id := Page.init.nextId + 0, lat := q.lat, lon := q.lon, selected := decide (0 = 0),
          click := { title := q.title, s := [none][0]?.join } }) :=
  ⟨((openDetails_panel sampleEnv [attachDist sampleMath ⟨0, 0⟩ placeA] [none] Page.init 0
      (attachDist sampleMath ⟨0, 0⟩ placeA) rfl).2.2.1 rfl).1,
   (openDetails_panel sampleEnv [attachDist sampleMath ⟨0, 0⟩ placeA] [none] Page.init 0
      (attachDist sampleMath ⟨0, 0⟩ placeA) rfl).2.2.2 (by simp)
      (by intro m hm; simp [Page.init] at hm) 0⟩

/-- C7, counterexample: the place `A` is in the live result set and
`API.summary` returned `null` for it; after a click on its row, and after a
click on its marker, the panel is still hidden and empty: no fallback is
shown. -/
theorem openDetails_null_summary_no_panel :
    rowTitles (swap (withDist sampleMath ⟨0, 0⟩ [placeA]) [none] Page.init) = [['A']] ∧
    (clickRow sampleEnv 0
      (swap (withDist sampleMath ⟨0, 0⟩ [placeA]) [none] Page.init)).panelHidden = true ∧
    (clickRow sampleEnv 0
      (swap (withDist sampleMath ⟨0, 0⟩ [placeA]) [none] Page.init)).panelBody = [] ∧
    (clickMarker sampleEnv 0
      (swap (withDist sampleMath ⟨0, 0⟩ [placeA]) [none] Page.init)).panelHidden = true := by
  decide!

end WikiXplorer
